import Mathlib

/-!
Verification of the `presence_simulator` integration
(`homeassistant/components/presence_simulator/`).

Shallow embedding of the two pure cores of the repository:

* the configuration resolver `validate` (switch.py, lines 169-180) with its
  supporting constants `VALIDATION_TUPLES`, `EXTRA_VALIDATION`, `NONE_STR`
  and `replace_none_str` (const.py);
* the correlation-identifier encoder `_int_to_bytes` / `_short_hash` /
  `create_context` / `is_our_context` (switch.py, lines 67-104) together
  with the `base64.b85encode` pipeline it uses.

Python strings that take part in character-level computation (identifier
composition, truncation, prefix tests) are modelled as `List Char`; Python
dictionaries as insertion-ordered association lists (`Dict`); Python's
built-in `hash` (process-seeded, not reproducible across runs) is a
parameter of every identifier-side definition.
-/

namespace PresenceSimulator

/-- An atomic Python value as it occurs inside the list values of this
integration's configuration (entity-id strings, the builtin type object
`str` used in the placeholder defaults `[str]`). -/
inductive Atom where
  | bool (b : Bool)
  | int (n : Int)
  | str (s : String)
  | pytype (tyname : String)
  deriving DecidableEq, Repr

/-- A Python value as it occurs in this integration's configuration layers:
`None`, booleans, integers, strings, `datetime.timedelta` objects (held as a
whole number of seconds — every duration reachable in the program is a whole
number of seconds), builtin type objects, and flat lists of atoms.  Lists in
this program are never nested. -/
inductive Value where
  | none
  | bool (b : Bool)
  | int (n : Int)
  | str (s : String)
  | timedelta (seconds : Int)
  | pytype (tyname : String)
  | list (xs : List Atom)
  deriving DecidableEq, Repr

/-- A Python `dict` with string keys: an insertion-ordered association list
whose keys are unique (uniqueness is a hypothesis where a theorem needs it,
mirroring the fact that a Python dict cannot hold a duplicate key). -/
abbrev Dict := List (String × Value)

/-- `d[k] = v`: replace the binding of `k` in place if present, else append
a new binding at the end (Python dict item assignment). -/
def dset : Dict → String → Value → Dict
  | [], k, v => [(k, v)]
  | (k₀, v₀) :: rest, k, v =>
      if k₀ = k then (k₀, v) :: rest else (k₀, v₀) :: dset rest k v

/-- `d.get(k)`: the value bound to `k`, or `none` when absent. -/
def dget : Dict → String → Option Value
  | [], _ => Option.none
  | (k₀, v₀) :: rest, k => if k₀ = k then some v₀ else dget rest k

/-- `d.update(u)`: assign every binding of `u`, in order, into `d`
(Python `dict.update`). -/
def dupdate (d : Dict) (u : Dict) : Dict :=
  u.foldl (fun acc kv => dset acc kv.1 kv.2) d

/-- `{key: f(value) for key, value in d.items()}`: rebuild the dict with
every value transformed (keys and order preserved). -/
def dmap (f : Value → Value) (d : Dict) : Dict :=
  d.map (fun kv => (kv.1, f kv.2))

/-- The list of keys of a dict, in order. -/
def dkeys (d : Dict) : List String := d.map Prod.fst

/-! ## Constants (const.py) -/

/-- const.py line 13: `NONE_STR = "None"`. -/
def NONE_STR : String := "None"

def CONF_LIGHTS : String := "lights"

/-- const.py line 15: `DEFAULT_LIGHTS = [str]` — a one-element list holding
the builtin type object `str` (a placeholder default). -/
def DEFAULT_LIGHTS : Value := .list [.pytype "str"]

def CONF_AUTOMATIONS : String := "automations"

/-- const.py line 16: `DEFAULT_AUTOMATIONS = [str]`. -/
def DEFAULT_AUTOMATIONS : Value := .list [.pytype "str"]

def CONF_INTERVAL : String := "interval"

def DEFAULT_INTERVAL : Value := .int 10

def CONF_PLAYBACK_DAYS : String := "playback_days"

def DEFAULT_PLAYBACK_DAYS : Value := .int 7

def CONF_AUTOMATIONS_FILTER : String := "automation_filter"

def DEFAULT_AUTOMATIONS_FILTER : Value := .str "%zigbee2mqtt/Feller%"

def CONF_LIGHTS_FILTER : String := "lights_filter"

def DEFAULT_LIGHTS_FILTER : Value := .str ""

/-- const.py lines 47-49: `replace_none_str(value, replace_with=None)` —
`return value if value != NONE_STR else replace_with`. -/
def replace_none_str (value : Value) (replace_with : Value := Value.none) : Value :=
  if value = Value.str NONE_STR then replace_with else value

/-- const.py lines 52-54: `timedelta_as_int(value)` returns
`value.total_seconds()`.  Only ever meaningful on a timedelta (calling it on
anything else raises in Python; that branch is unreachable in the program,
and `validate` in fact never calls this function at all). -/
def timedelta_as_int (value : Value) : Value :=
  match value with
  | .timedelta s => .int s
  | v => v

/-- Read a run of decimal digits as a natural number; `Option.none` if the
character list is empty or contains a non-digit. -/
def parseDigits (cs : List Char) : Option Nat :=
  if cs = [] then Option.none
  else cs.foldl
    (fun acc c =>
      match acc with
      | some n => if c.isDigit then some (n * 10 + (c.toNat - 48)) else Option.none
      | Option.none => Option.none)
    (some 0)

/-- Split a character list on `':'`. -/
def splitColon (cs : List Char) : List (List Char) :=
  cs.foldr
    (fun c acc =>
      match acc with
      | [] => if c = ':' then [[], []] else [[c]]
      | p :: ps => if c = ':' then [] :: p :: ps else (c :: p) :: ps)
    [[]]

/-- Parse a duration string of the form `"H:MM"` or `"H:MM:SS"` into a total
number of seconds. -/
def parseTimePeriodStr (s : String) : Option Nat :=
  match (splitColon s.toList).mapM parseDigits with
  | some [h, m] => some (h * 3600 + m * 60)
  | some [h, m, sec] => some (h * 3600 + m * 60 + sec)
  | _ => Option.none

/-- Modelled from the spec: `cv.time_period`
(`homeassistant/helpers/config_validation.py` is part of this repository but
not under src/).  The spec describes it as the strict validator of the
duration coercion pair: it accepts "a duration value expressed as a
structured time period" — a duration string such as `"0:05:00"` (a 5-minute
period), a plain number of seconds (the schema default `interval = 10` is a
count of seconds), or an already-structured time period — and yields the
structured time period; any other value fails validation with an error
raised by the validator itself. -/
def time_period (value : Value) : Except String Value :=
  match value with
  | .timedelta s => .ok (.timedelta s)
  | .int n => .ok (.timedelta n)
  | .str s =>
      match parseTimePeriodStr s with
      | some secs => .ok (.timedelta (Int.ofNat secs))
      | Option.none => .error ("offending value for time period: " ++ s)
  | _ => .error "offending value for time period"

/-- const.py lines 32-40: `VALIDATION_TUPLES`, the schema — ordered
`(key, default, validator)` triples.  The third component (the UI-boundary
validator, e.g. `cv.entity_ids`) is never invoked by `validate`
(it is destructured away as `_`); it is kept here as a plain name tag. -/
def VALIDATION_TUPLES : List (String × Value × String) :=
  [ (CONF_AUTOMATIONS, DEFAULT_AUTOMATIONS, "cv.entity_ids"),
    (CONF_AUTOMATIONS_FILTER, DEFAULT_AUTOMATIONS_FILTER, "cv.string"),
    (CONF_LIGHTS, DEFAULT_LIGHTS, "cv.entity_ids"),
    (CONF_LIGHTS_FILTER, DEFAULT_LIGHTS_FILTER, "cv.string"),
    (CONF_PLAYBACK_DAYS, DEFAULT_PLAYBACK_DAYS, "int_between 1 14"),
    (CONF_INTERVAL, DEFAULT_INTERVAL, "cv.positive_int") ]

/-- A coercion pair of `EXTRA_VALIDATION`: the strict validator (first) and
the storage-normalization function (second). -/
abbrev TransformPair := (Value → Except String Value) × (Value → Value)

/-- const.py lines 58-66: `EXTRA_VALIDATION = \x7b CONF_INTERVAL:
(cv.time_period, timedelta_as_int) \x7d` (every other entry is commented
out in the source). -/
def EXTRA_VALIDATION : List (String × TransformPair) :=
  [ (CONF_INTERVAL, (time_period, timedelta_as_int)) ]

/-! ## The configuration resolver (switch.py, lines 169-180) -/

/-- switch.py line 171: `defaults = \x7bkey: default for key, default, _ in
VALIDATION_TUPLES\x7d`. -/
def schemaDefaults (schema : List (String × Value × String)) : Dict :=
  schema.map (fun t => (t.1, t.2.1))

/-- switch.py lines 172-174: `data = deepcopy(defaults);
data.update(entry.options); data.update(entry.data)`. -/
def mergeLayers (defaults options data : Dict) : Dict :=
  dupdate (dupdate defaults options) data

/-- switch.py lines 176-179: the `EXTRA_VALIDATION` loop — for each
`key, (validate_value, _)`: `value = data.get(key); if value is not None:
data[key] = validate_value(value)`.  A validation error raised by
`validate_value` propagates out. -/
def applyExtra (extra : List (String × TransformPair)) (d : Dict) :
    Except String Dict :=
  extra.foldlM
    (fun acc e =>
      match dget acc e.1 with
      | some v =>
          if v = Value.none then pure acc
          else do pure (dset acc e.1 (← e.2.1 v))
      | Option.none => pure acc)
    d

/-- The body of switch.py's `validate`, λ-lifted over the two module
constants it reads (`VALIDATION_TUPLES` as `schema`, `EXTRA_VALIDATION` as
`extra`), so that it matches the spec's contract
`resolve(schema, persisted_options, entry_data)`: build defaults, overlay
the two layers, replace the `"None"` sentinel in every value, then run the
coercion loop. -/
def resolve (schema : List (String × Value × String))
    (extra : List (String × TransformPair)) (options data : Dict) :
    Except String Dict :=
  applyExtra extra
    (dmap (fun value => replace_none_str value)
      (mergeLayers (schemaDefaults schema) options data))

/-- A config entry as `validate` consumes it: its `options` mapping (from
the options flow) and its `data` mapping (yaml settings). -/
structure ConfigEntry where
  options : Dict
  data : Dict
  deriving DecidableEq, Repr

/-- switch.py lines 169-180: `validate(entry)` — exactly `resolve` applied
to the module constants and the entry's two layers. -/
def validate (entry : ConfigEntry) : Except String Dict :=
  resolve VALIDATION_TUPLES EXTRA_VALIDATION entry.options entry.data

/-! ## The correlation-identifier encoder (switch.py, lines 67-104) -/

/-- Python `int.bit_length()` on a natural number: the number of bits needed
to write `n` in binary, with `bit_length 0 = 0`. -/
def bit_length (n : Nat) : Nat :=
  if n = 0 then 0 else Nat.log2 n + 1

/-- The `n`-byte little-endian representation of `v` (each byte in
`0..255`); `v`'s digits base 256, least significant first. -/
def natToBytesLE (v : Nat) : Nat → List Nat
  | 0 => []
  | n + 1 => (v % 256) :: natToBytesLE (v / 256) n

/-- switch.py lines 71-76: `_int_to_bytes(i, signed=False)` — `bits =
i.bit_length()`, one extra bit for the sign when signed, then
`i.to_bytes((bits + 7) // 8, "little", signed=signed)`.  For signed mode the
byte count always suffices, and the bytes are the two's complement of `i`
little-endian (`i mod 2^(8n)`).  Unsigned mode is only ever reached with the
non-negative context counter (a negative argument would raise
`OverflowError` in Python; that branch is unreachable in the program). -/
def _int_to_bytes (i : Int) (signed : Bool := false) : List Nat :=
  let bits := bit_length i.natAbs
  let bits := if signed then bits + 1 else bits
  let n := (bits + 7) / 8
  if signed then natToBytesLE (i % ((2 : Int) ^ (8 * n))).toNat n
  else natToBytesLE i.toNat n

/-- The RFC 1924 base-85 alphabet used by Python's `base64.b85encode`:
digits, upper case, lower case, then 23 punctuation characters. -/
def B85_ALPHABET : List Char :=
  "0123456789ABCDEFGHIJKLMNOPQRSTUVWXYZabcdefghijklmnopqrstuvwxyz!#$%&()*+-;<=>?@^_`\x7b|\x7d~".toList

/-- One 32-bit word rendered as 5 base-85 characters, most significant
digit first. -/
def b85chunk (w : Nat) : List Char :=
  [ B85_ALPHABET.getD (w / 85 ^ 4 % 85) '0',
    B85_ALPHABET.getD (w / 85 ^ 3 % 85) '0',
    B85_ALPHABET.getD (w / 85 ^ 2 % 85) '0',
    B85_ALPHABET.getD (w / 85 % 85) '0',
    B85_ALPHABET.getD (w % 85) '0' ]

/-- Encode a byte list four bytes at a time: each group of four is read as a
big-endian 32-bit word and rendered as a 5-character chunk.  A leftover of
fewer than four bytes contributes nothing (`b85encode` pads the input so
this never happens there). -/
def b85body : List Nat → List Char
  | b0 :: b1 :: b2 :: b3 :: rest =>
      b85chunk (((b0 * 256 + b1) * 256 + b2) * 256 + b3) ++ b85body rest
  | _ => []

/-- Python `base64.b85encode` (no padding flag): right-pad the input with
zero bytes to a multiple of four, encode each big-endian word as five
base-85 characters, then drop as many trailing characters as padding bytes
were added. -/
def b85encode (b : List Nat) : List Char :=
  let padding := (4 - b.length % 4) % 4
  let full := b85body (b ++ List.replicate padding 0)
  full.take (full.length - padding)

/-- switch.py line 68: `_DOMAIN_SHORT = "adapt_lgt"` — the origin tag kept
short so identifiers fit in 36 characters. -/
def _DOMAIN_SHORT : List Char := "adapt_lgt".toList

/-- switch.py lines 79-82: `_short_hash(string, length=4)` —
`base64.b85encode(_int_to_bytes(hash(string), signed=True))[:length]`.
Python's built-in `hash` is process-seeded, so it enters as the parameter
`h`. -/
def _short_hash (h : List Char → Int) (s : List Char) (length : Nat := 4) :
    List Char :=
  (b85encode (_int_to_bytes (h s) true)).take length

/-- A host `Context` object as `create_context` builds it: its `id` string
and optional `parent_id` string. -/
structure Context where
  id : List Char
  parent_id : Option (List Char) := Option.none
  deriving DecidableEq, Repr

/-- The composed identifier before the final 36-character truncation:
`f"\x7b_DOMAIN_SHORT\x7d:\x7bname_hash\x7d:\x7bwhich\x7d:\x7bindex_packed\x7d"`. -/
def context_id_untruncated (h : List Char → Int) (name which : List Char)
    (index : Nat) : List Char :=
  _DOMAIN_SHORT ++ [':'] ++ _short_hash h name ++ [':'] ++ which ++ [':']
    ++ b85encode (_int_to_bytes (Int.ofNat index) false)

/-- switch.py lines 85-97: `create_context(name, which, index, parent=None)`
— hash the name, pack the index in base 85, compose
`f"..."[:36]`, and record the parent's id when a parent is given. -/
def create_context (h : List Char → Int) (name which : List Char)
    (index : Nat) (parent : Option Context := Option.none) : Context :=
  let context_id := (context_id_untruncated h name which index).take 36
  let parent_id := parent.map (fun p => p.id)
  { id := context_id, parent_id := parent_id }

/-- switch.py lines 100-104: `is_our_context(context)` — `False` for
`None`, else `context.id.startswith(_DOMAIN_SHORT)`. -/
def is_our_context : Option Context → Bool
  | Option.none => false
  | some context => _DOMAIN_SHORT.isPrefixOf context.id

/-- Follows the spec's words (§4.1, steps 1-3), for refinement comparison
with `create_context`: the name digest is the first 4 characters of the
base-85 encoding of the signed hash's minimal two's-complement little-endian
bytes (bit length plus one sign bit, rounded up to whole bytes); the
sequence index is encoded the same way as an unsigned integer (no sign bit,
no length cap); the identifier is
`<origin_tag>:<name_digest>:<category>:<sequence_index_encoded>` truncated
to 36 characters. -/
def spec_encode (h : List Char → Int) (name category : List Char)
    (sequence_index : Nat) : List Char :=
  let signedByteCount := (bit_length (h name).natAbs + 1 + 7) / 8
  let digestBytes :=
    natToBytesLE ((h name % ((2 : Int) ^ (8 * signedByteCount))).toNat)
      signedByteCount
  let name_digest := (b85encode digestBytes).take 4
  let seqBytes :=
    natToBytesLE sequence_index ((bit_length sequence_index + 7) / 8)
  let sequence_index_encoded := b85encode seqBytes
  (_DOMAIN_SHORT ++ [':'] ++ name_digest ++ [':'] ++ category ++ [':']
    ++ sequence_index_encoded).take 36

/-- The dictionary output of `validate` on the C1 scenario entry
(`entry_data = \x7binterval: "0:05:00"\x7d`), written out literally. -/
def C1_output : Dict :=
  [ (CONF_AUTOMATIONS, DEFAULT_AUTOMATIONS),
    (CONF_AUTOMATIONS_FILTER, DEFAULT_AUTOMATIONS_FILTER),
    (CONF_LIGHTS, DEFAULT_LIGHTS),
    (CONF_LIGHTS_FILTER, DEFAULT_LIGHTS_FILTER),
    (CONF_PLAYBACK_DAYS, DEFAULT_PLAYBACK_DAYS),
    (CONF_INTERVAL, Value.timedelta 300) ]

/-- The dictionary output of `validate` on an entry with empty `options`
and empty `data` (all defaults; the default `interval = 10` seconds is
validated into a 10-second time period), written out literally. -/
def default_output : Dict :=
  [ (CONF_AUTOMATIONS, DEFAULT_AUTOMATIONS),
    (CONF_AUTOMATIONS_FILTER, DEFAULT_AUTOMATIONS_FILTER),
    (CONF_LIGHTS, DEFAULT_LIGHTS),
    (CONF_LIGHTS_FILTER, DEFAULT_LIGHTS_FILTER),
    (CONF_PLAYBACK_DAYS, DEFAULT_PLAYBACK_DAYS),
    (CONF_INTERVAL, Value.timedelta 10) ]

/-! ## Dictionary lemmas -/

theorem dget_dset (d : Dict) (k : String) (v : Value) (k' : String) :
    dget (dset d k v) k' = if k' = k then some v else dget d k' := by
  induction d with
  | nil =>
      simp only [dset, dget]
      by_cases h : k = k' <;> simp [h, eq_comm]
  | cons kv rest ih =>
      obtain ⟨k₀, v₀⟩ := kv
      by_cases h₀ : k₀ = k
      · subst h₀
        by_cases h' : k' = k₀ <;> simp [dset, dget, h', eq_comm]
      · by_cases h' : k₀ = k' <;> by_cases h'' : k' = k <;>
          simp_all [dset, dget]

theorem dkeys_cons (k : String) (v : Value) (d : Dict) :
    dkeys ((k, v) :: d) = k :: dkeys d := rfl

theorem mem_dkeys_iff_dget (d : Dict) (k : String) :
    k ∈ dkeys d ↔ dget d k ≠ Option.none := by
  induction d with
  | nil => simp [dkeys, dget]
  | cons kv rest ih =>
      obtain ⟨k₀, v₀⟩ := kv
      rw [dkeys_cons, List.mem_cons, ih]
      by_cases h : k₀ = k
      · subst h
        simp [dget]
      · have hne : ¬k = k₀ := fun hk => h hk.symm
        simp [dget, h, hne]

theorem dget_mem (d : Dict) (k : String) (v : Value)
    (h : dget d k = some v) : (k, v) ∈ d := by
  induction d with
  | nil => simp [dget] at h
  | cons kv rest ih =>
      obtain ⟨k₀, v₀⟩ := kv
      by_cases h₀ : k₀ = k
      · subst h₀
        simp [dget] at h
        simp [h]
      · simp [dget, h₀] at h
        simp [ih h]

theorem mem_dset_val (d : Dict) (k : String) (v : Value) (kv : String × Value)
    (h : kv ∈ dset d k v) : kv.2 = v ∨ kv ∈ d := by
  induction d with
  | nil =>
      simp [dset] at h
      simp [h]
  | cons kv₀ rest ih =>
      obtain ⟨k₀, v₀⟩ := kv₀
      by_cases h₀ : k₀ = k <;> simp [dset, h₀] at h
      · rcases h with h | h
        · simp [h]
        · simp [h]
      · rcases h with h | h
        · simp [h]
        · rcases ih h with h' | h' <;> simp [h']

theorem mem_dkeys_dset (d : Dict) (k : String) (v : Value) (k' : String) :
    k' ∈ dkeys (dset d k v) ↔ k' ∈ dkeys d ∨ k' = k := by
  rw [mem_dkeys_iff_dget, mem_dkeys_iff_dget, dget_dset]
  by_cases h : k' = k <;> simp [h]

theorem dget_dupdate_of_not_mem (d u : Dict) (k : String)
    (h : k ∉ dkeys u) : dget (dupdate d u) k = dget d k := by
  induction u generalizing d with
  | nil => rfl
  | cons kv rest ih =>
      obtain ⟨k₀, v₀⟩ := kv
      rw [dkeys_cons, List.mem_cons] at h
      push_neg at h
      rw [show dupdate d ((k₀, v₀) :: rest) = dupdate (dset d k₀ v₀) rest from rfl,
        ih _ h.2, dget_dset, if_neg h.1]

theorem dget_dupdate (d u : Dict) (k : String)
    (hu : (dkeys u).Nodup) : dget (dupdate d u) k = (dget u k).or (dget d k) := by
  induction u generalizing d with
  | nil => simp [dupdate, dget]
  | cons kv rest ih =>
      obtain ⟨k₀, v₀⟩ := kv
      rw [dkeys_cons, List.nodup_cons] at hu
      rw [show dupdate d ((k₀, v₀) :: rest) = dupdate (dset d k₀ v₀) rest from rfl,
        ih _ hu.2]
      by_cases h : k₀ = k
      · subst h
        rw [show dget ((k₀, v₀) :: rest) k₀ = some v₀ by simp [dget]]
        have hr : dget rest k₀ = Option.none := by
          by_contra hne
          exact hu.1 ((mem_dkeys_iff_dget rest k₀).mpr hne)
        simp [hr, dget_dset]
      · rw [show dget ((k₀, v₀) :: rest) k = dget rest k by simp [dget, h]]
        rw [dget_dset, if_neg (fun hk => h hk.symm)]

theorem mem_dkeys_dupdate (d u : Dict) (k : String) :
    k ∈ dkeys (dupdate d u) ↔ k ∈ dkeys d ∨ k ∈ dkeys u := by
  induction u generalizing d with
  | nil => simp [dupdate, dkeys]
  | cons kv rest ih =>
      obtain ⟨k₀, v₀⟩ := kv
      rw [show dupdate d ((k₀, v₀) :: rest) = dupdate (dset d k₀ v₀) rest from rfl,
        ih, mem_dkeys_dset, dkeys_cons, List.mem_cons]
      tauto

theorem dget_dmap (f : Value → Value) (d : Dict) (k : String) :
    dget (dmap f d) k = (dget d k).map f := by
  induction d with
  | nil => simp [dmap, dget]
  | cons kv rest ih =>
      obtain ⟨k₀, v₀⟩ := kv
      by_cases h : k₀ = k
      · simp [dmap, dget, h]
      · rw [show dmap f ((k₀, v₀) :: rest) = (k₀, f v₀) :: dmap f rest from rfl]
        simp only [dget, if_neg h]
        exact ih

theorem dkeys_dmap (f : Value → Value) (d : Dict) :
    dkeys (dmap f d) = dkeys d := by
  simp [dmap, dkeys, Function.comp]

theorem mem_dmap (f : Value → Value) (d : Dict) (kv : String × Value)
    (h : kv ∈ dmap f d) : ∃ v₀, (kv.1, v₀) ∈ d ∧ kv.2 = f v₀ := by
  rw [dmap, List.mem_map] at h
  obtain ⟨a, hmem, heq⟩ := h
  refine ⟨a.2, ?_, ?_⟩
  · rw [show kv.1 = a.1 by rw [← heq]]
    exact hmem
  · rw [← heq]

/-! ## Resolver lemmas -/

theorem replace_none_str_ne_sentinel (v : Value) :
    replace_none_str v ≠ Value.str NONE_STR := by
  rw [replace_none_str]
  split
  · simp [NONE_STR]
  · next h => exact h

theorem time_period_ok_timedelta (v w : Value)
    (h : time_period v = Except.ok w) : ∃ s, w = Value.timedelta s := by
  cases v with
  | int n =>
      simp [time_period] at h
      exact ⟨n, h.symm⟩
  | timedelta s =>
      simp [time_period] at h
      exact ⟨s, h.symm⟩
  | str s =>
      rw [time_period] at h
      cases hp : parseTimePeriodStr s with
      | none => rw [hp] at h; simp at h
      | some secs =>
          rw [hp] at h
          simp at h
          exact ⟨Int.ofNat secs, h.symm⟩
  | none => simp [time_period] at h
  | bool b => simp [time_period] at h
  | pytype t => simp [time_period] at h
  | list xs => simp [time_period] at h

/-- The `EXTRA_VALIDATION` loop of `validate`, unfolded at the repository's
single registered transform (`interval`). -/
theorem applyExtra_interval (d : Dict) :
    applyExtra EXTRA_VALIDATION d =
      match dget d CONF_INTERVAL with
      | some v =>
          if v = Value.none then Except.ok d
          else (time_period v).bind
            (fun w => Except.ok (dset d CONF_INTERVAL w))
      | Option.none => Except.ok d := by
  rw [applyExtra, EXTRA_VALIDATION]
  cases hv : dget d CONF_INTERVAL with
  | none => simp [List.foldlM, hv, pure, Except.pure, Bind.bind, Except.bind]
  | some v =>
      by_cases h : v = Value.none
      · simp [List.foldlM, hv, h, pure, Except.pure, Bind.bind, Except.bind]
      · cases ht : time_period v <;>
          simp [List.foldlM, hv, h, ht, pure, Except.pure, Bind.bind, Except.bind]

/-- Every value in a successful output of the repository's resolver is a
non-sentinel value: the sentinel-replacement pass removes every `"None"`,
and the only coercion ever applied (`cv.time_period`) yields a structured
time period, never a string. -/
theorem resolve_values_ne_sentinel (schema : List (String × Value × String))
    (options data out : Dict)
    (h : resolve schema EXTRA_VALIDATION options data = Except.ok out) :
    ∀ kv ∈ out, kv.2 ≠ Value.str NONE_STR := by
  rw [resolve, applyExtra_interval] at h
  have hrep : ∀ kv ∈ dmap (fun value => replace_none_str value)
      (mergeLayers (schemaDefaults schema) options data),
      kv.2 ≠ Value.str NONE_STR := by
    intro kv hkv
    obtain ⟨v₀, _, hv⟩ := mem_dmap _ _ _ hkv
    rw [hv]
    exact replace_none_str_ne_sentinel v₀
  split at h
  · next v hv =>
      split at h
      · simp at h
        rw [← h]
        exact hrep
      · cases ht : time_period v with
        | error e => rw [ht] at h; simp [Except.bind] at h
        | ok w =>
            rw [ht] at h
            simp [Except.bind] at h
            obtain ⟨s, hs⟩ := time_period_ok_timedelta v w ht
            intro kv hkv
            rw [← h] at hkv
            rcases mem_dset_val _ _ _ _ hkv with h2 | h2
            · rw [h2, hs]
              simp
            · exact hrep kv h2
  · next hv =>
      simp at h
      rw [← h]
      exact hrep

/-- A successful output of the resolver has exactly the schema keys plus
the override keys (the coercion loop never adds or removes a key). -/
theorem resolve_keys (schema : List (String × Value × String))
    (options data out : Dict)
    (h : resolve schema EXTRA_VALIDATION options data = Except.ok out)
    (k : String) :
    k ∈ dkeys out ↔
      k ∈ dkeys (schemaDefaults schema) ∨ k ∈ dkeys options ∨ k ∈ dkeys data := by
  rw [resolve, applyExtra_interval] at h
  have base : ∀ k, k ∈ dkeys (dmap (fun value => replace_none_str value)
        (mergeLayers (schemaDefaults schema) options data)) ↔
      k ∈ dkeys (schemaDefaults schema) ∨ k ∈ dkeys options ∨ k ∈ dkeys data := by
    intro k
    rw [dkeys_dmap, mergeLayers, mem_dkeys_dupdate, mem_dkeys_dupdate]
    tauto
  split at h
  · next v hv =>
      split at h
      · simp at h
        rw [← h]
        exact base k
      · cases ht : time_period v with
        | error e => rw [ht] at h; simp [Except.bind] at h
        | ok w =>
            rw [ht] at h
            simp [Except.bind] at h
            rw [← h, mem_dkeys_dset]
            constructor
            · rintro (hk | hk)
              · exact (base k).mp hk
              · subst hk
                exact (base _).mp ((mem_dkeys_iff_dget _ _).mpr (by rw [hv]; simp))
            · intro hk
              exact Or.inl ((base k).mpr hk)
  · next hv =>
      simp at h
      rw [← h]
      exact base k

/-- The merged-then-replaced value at `interval` when neither layer binds
`interval`: the schema default `10`, untouched by sentinel replacement. -/
theorem replaced_interval_default (options data : Dict)
    (ho : dget options CONF_INTERVAL = Option.none)
    (hd : dget data CONF_INTERVAL = Option.none) :
    dget (dmap (fun value => replace_none_str value)
      (mergeLayers (schemaDefaults VALIDATION_TUPLES) options data))
      CONF_INTERVAL = some (Value.int 10) := by
  have hmd : CONF_INTERVAL ∉ dkeys data := by
    simp [mem_dkeys_iff_dget, hd]
  have hmo : CONF_INTERVAL ∉ dkeys options := by
    simp [mem_dkeys_iff_dget, ho]
  rw [dget_dmap, mergeLayers, dget_dupdate_of_not_mem _ _ _ hmd,
    dget_dupdate_of_not_mem _ _ _ hmo,
    show dget (schemaDefaults VALIDATION_TUPLES) CONF_INTERVAL
      = some (Value.int 10) from by decide]
  decide

/-! ## Encoder lemmas -/

theorem natToBytesLE_length (v n : Nat) : (natToBytesLE v n).length = n := by
  induction n generalizing v with
  | zero => rfl
  | succ m ih => simp [natToBytesLE, ih]

theorem b85body_length (l : List Nat) : (b85body l).length = 5 * (l.length / 4) := by
  induction l using b85body.induct with
  | case1 b0 b1 b2 b3 rest ih =>
      simp [b85body, b85chunk, ih]
      omega
  | case2 l h =>
      cases l with
      | nil => simp [b85body]
      | cons a t => cases t with
        | nil => simp [b85body]
        | cons b t2 => cases t2 with
          | nil => simp [b85body]
          | cons c t3 => cases t3 with
            | nil => simp [b85body]
            | cons d t4 => exact absurd rfl (h a b c d t4)

theorem b85encode_length (b : List Nat) :
    (b85encode b).length =
      5 * ((b.length + (4 - b.length % 4) % 4) / 4) - (4 - b.length % 4) % 4 := by
  rw [b85encode]
  simp [b85body_length, List.length_take]

theorem b85encode_ne_nil (b : List Nat) (h : 1 ≤ b.length) :
    b85encode b ≠ [] := by
  have hl := b85encode_length b
  intro hnil
  rw [hnil] at hl
  simp at hl
  omega

theorem bit_length_pos (n : Nat) (h : 1 ≤ n) : 1 ≤ bit_length n := by
  rw [bit_length, if_neg (by omega)]
  omega

/-! ## Claim theorems -/

/-- C1 (amended): `validate` applies the strict validator (the first
component of the registered transform pair), not the storage-normalization
function, to every non-absent merged value of a key with a registered
transform; the concrete scenario `entry_data = \x7binterval: "0:05:00"\x7d`
therefore resolves `interval` to the structured 5-minute time period
(300 seconds as a timedelta), not to the plain integer 300. -/
theorem C1_resolver_applies_strict_validator :
    (validate ⟨[], [(CONF_INTERVAL, Value.str "0:05:00")]⟩ = Except.ok C1_output ∧
      dget C1_output CONF_INTERVAL = some (Value.timedelta 300)) ∧
    ∀ options data out v,
      resolve VALIDATION_TUPLES EXTRA_VALIDATION options data = Except.ok out →
      dget (dmap (fun value => replace_none_str value)
        (mergeLayers (schemaDefaults VALIDATION_TUPLES) options data))
        CONF_INTERVAL = some v →
      v ≠ Value.none →
      ∃ w, time_period v = Except.ok w ∧ dget out CONF_INTERVAL = some w := by
  constructor
  · exact ⟨rfl, by decide⟩
  · intro options data out v h hv hn
    rw [resolve, applyExtra_interval] at h
    split at h
    · next v' hv' =>
        rw [hv] at hv'
        have hvv : v' = v := by
          exact (Option.some.injEq _ _ ▸ hv').symm
        subst hvv
        rw [if_neg hn] at h
        cases ht : time_period v' with
        | error e => rw [ht] at h; simp [Except.bind] at h
        | ok w =>
            rw [ht] at h
            simp [Except.bind] at h
            refine ⟨w, rfl, ?_⟩
            rw [← h, dget_dset, if_pos rfl]
    · next hv' => rw [hv] at hv'; simp at hv'

/-- C1 counterexample: on the scenario
`entry_data = \x7binterval: "0:05:00"\x7d` the output of `validate` does
not map `interval` to 300 (it maps it to the 300-second timedelta). -/
theorem C1_counterexample_interval_not_int300 :
    validate ⟨[], [(CONF_INTERVAL, Value.str "0:05:00")]⟩ = Except.ok C1_output ∧
    dget C1_output CONF_INTERVAL ≠ some (Value.int 300) :=
  ⟨rfl, by decide⟩

/-- C1 witness: the amended theorem applied at the concrete scenario. -/
theorem C1_witness :
    ∃ w, time_period (Value.str "0:05:00") = Except.ok w ∧
      dget C1_output CONF_INTERVAL = some w :=
  C1_resolver_applies_strict_validator.2 [] [(CONF_INTERVAL, Value.str "0:05:00")]
    C1_output (Value.str "0:05:00") rfl (by decide) (by decide)

/-- C2: for every hash function, name, category, non-negative index and
parent, the identifier produced by `create_context` is at most 36
characters long and `is_our_context` recognizes it. -/
theorem C2_encode_bounded_and_recognized (h : List Char → Int)
    (name which : List Char) (index : Nat) (parent : Option Context) :
    (create_context h name which index parent).id.length ≤ 36 ∧
    is_our_context (some (create_context h name which index parent)) = true := by
  constructor
  · rw [create_context]
    simp [List.length_take]
  · rw [is_our_context, create_context]
    rw [List.isPrefixOf_iff_prefix]
    rw [context_id_untruncated]
    simp only [List.append_assoc]
    rw [List.take_append_eq_append_take,
      List.take_of_length_le (l := _DOMAIN_SHORT) (by decide)]
    exact List.prefix_append _ _

/-- C3: `create_context` implements exactly the spec's algorithm — signed
minimal two's-complement little-endian bytes of the name hash, base-85,
first 4 characters; unsigned uncapped base-85 for the sequence index;
`<origin_tag>:<name_digest>:<category>:<index>` truncated to 36. -/
theorem C3_encode_algorithm_matches_spec (h : List Char → Int)
    (name category : List Char) (sequence_index : Nat) :
    spec_encode h name category sequence_index =
      (create_context h name category sequence_index Option.none).id := rfl

/-- C4: in the merged configuration (before sentinel replacement and
coercion), `entry.data` takes precedence over `entry.options`, which takes
precedence over the schema defaults. -/
theorem C4_layer_precedence (options data : Dict) (k : String)
    (ho : (dkeys options).Nodup) (hd : (dkeys data).Nodup) :
    (∀ v, dget data k = some v →
      dget (mergeLayers (schemaDefaults VALIDATION_TUPLES) options data) k
        = some v) ∧
    (dget data k = Option.none → ∀ v, dget options k = some v →
      dget (mergeLayers (schemaDefaults VALIDATION_TUPLES) options data) k
        = some v) ∧
    (dget data k = Option.none → dget options k = Option.none →
      dget (mergeLayers (schemaDefaults VALIDATION_TUPLES) options data) k
        = dget (schemaDefaults VALIDATION_TUPLES) k) := by
  have hm : dget (mergeLayers (schemaDefaults VALIDATION_TUPLES) options data) k
      = (dget data k).or
          ((dget options k).or (dget (schemaDefaults VALIDATION_TUPLES) k)) := by
    rw [mergeLayers, dget_dupdate _ _ _ hd, dget_dupdate _ _ _ ho]
  refine ⟨?_, ?_, ?_⟩
  · intro v hv
    rw [hm, hv]
    rfl
  · intro h0 v hv
    rw [hm, h0, hv]
    rfl
  · intro h0 h1
    rw [hm, h0, h1]
    rfl

/-- C4 witness: the precedence theorem applied at a concrete pair of
layers. -/
theorem C4_witness :
    dget (mergeLayers (schemaDefaults VALIDATION_TUPLES)
      [(CONF_INTERVAL, Value.int 5)] [(CONF_LIGHTS_FILTER, Value.str "x")])
      CONF_LIGHTS_FILTER = some (Value.str "x") :=
  (C4_layer_precedence [(CONF_INTERVAL, Value.int 5)]
    [(CONF_LIGHTS_FILTER, Value.str "x")] CONF_LIGHTS_FILTER
    (by decide) (by decide)).1 (Value.str "x") (by decide)

/-- C5: the sentinel string `"None"` never appears as a value in a
successful output of `validate`; in the concrete scenario
`persisted_options = \x7blights_filter: "None"\x7d` the output maps
`lights_filter` to the absence value. -/
theorem C5_sentinel_never_in_output :
    ((validate ⟨[(CONF_LIGHTS_FILTER, Value.str NONE_STR)], []⟩).map
        (fun out => dget out CONF_LIGHTS_FILTER)
      = Except.ok (some Value.none)) ∧
    ∀ entry out, validate entry = Except.ok out →
      ∀ kv ∈ out, kv.2 ≠ Value.str NONE_STR := by
  constructor
  · rfl
  · intro entry out h
    exact resolve_values_ne_sentinel VALIDATION_TUPLES entry.options entry.data out h

/-- C5 witness: the universal part applied at the empty entry and its
computed output. -/
theorem C5_witness : Value.timedelta 10 ≠ Value.str NONE_STR :=
  C5_sentinel_never_in_output.2 ⟨[], []⟩ default_output rfl
    (CONF_INTERVAL, Value.timedelta 10) (by decide)

/-- C6: for every schema and override layers, a successful `resolve` output
has exactly the schema keys plus the override keys (passthrough keys are
not stripped), and every schema key is present with a non-sentinel
value. -/
theorem C6_output_key_set (schema : List (String × Value × String))
    (options data out : Dict)
    (h : resolve schema EXTRA_VALIDATION options data = Except.ok out) :
    (∀ k, k ∈ dkeys out ↔
      k ∈ dkeys (schemaDefaults schema) ∨ k ∈ dkeys options ∨ k ∈ dkeys data) ∧
    (∀ k, k ∈ dkeys (schemaDefaults schema) →
      ∃ v, dget out k = some v ∧ v ≠ Value.str NONE_STR) := by
  refine ⟨fun k => resolve_keys schema options data out h k, fun k hk => ?_⟩
  have hmem : k ∈ dkeys out :=
    (resolve_keys schema options data out h k).mpr (Or.inl hk)
  rw [mem_dkeys_iff_dget] at hmem
  cases hv : dget out k with
  | none => exact absurd hv hmem
  | some v =>
      exact ⟨v, rfl,
        resolve_values_ne_sentinel schema options data out h (k, v)
          (dget_mem out k v hv)⟩

/-- C6 witness: the key-set theorem applied at the repository schema with
empty override layers. -/
theorem C6_witness :
    CONF_INTERVAL ∈ dkeys default_output ↔
      CONF_INTERVAL ∈ dkeys (schemaDefaults VALIDATION_TUPLES) ∨
      CONF_INTERVAL ∈ dkeys ([] : Dict) ∨ CONF_INTERVAL ∈ dkeys ([] : Dict) :=
  (C6_output_key_set VALIDATION_TUPLES [] [] default_output rfl).1 CONF_INTERVAL

/-- C7: `validate` succeeds whenever the transform key is missing from both
override layers (the default is used), and it fails only when a merged
value present in a layer fails its declared validator, the validator's
error being propagated unchanged. -/
theorem C7_error_handling (entry : ConfigEntry) :
    (dget entry.options CONF_INTERVAL = Option.none →
      dget entry.data CONF_INTERVAL = Option.none →
      ∃ out, validate entry = Except.ok out) ∧
    (∀ e, validate entry = Except.error e →
      (dget entry.options CONF_INTERVAL ≠ Option.none ∨
        dget entry.data CONF_INTERVAL ≠ Option.none) ∧
      ∃ v, dget (dmap (fun value => replace_none_str value)
          (mergeLayers (schemaDefaults VALIDATION_TUPLES)
            entry.options entry.data)) CONF_INTERVAL = some v ∧
        v ≠ Value.none ∧ time_period v = Except.error e) := by
  constructor
  · intro ho hd
    refine ⟨dset (dmap (fun value => replace_none_str value)
        (mergeLayers (schemaDefaults VALIDATION_TUPLES)
          entry.options entry.data)) CONF_INTERVAL (Value.timedelta 10), ?_⟩
    rw [validate, resolve, applyExtra_interval,
      replaced_interval_default _ _ ho hd]
    simp [time_period, Except.bind]
  · intro e he
    rw [validate, resolve, applyExtra_interval] at he
    split at he
    · next v hv =>
        split at he
        · simp at he
        · next hn =>
            cases ht : time_period v with
            | ok w => rw [ht] at he; simp [Except.bind] at he
            | error e' =>
                rw [ht] at he
                simp [Except.bind] at he
                refine ⟨?_, v, hv, hn, by rw [ht, he]⟩
                by_contra hno
                push_neg at hno
                rw [replaced_interval_default _ _ hno.1 hno.2] at hv
                have : v = Value.int 10 := by
                  exact (Option.some.injEq _ _ ▸ hv.symm)
                rw [this] at ht
                simp [time_period] at ht
    · next hv => simp at he

/-- C7 witness: the error branch applied at a concrete entry whose
`interval` value cannot be parsed as a duration. -/
theorem C7_witness :
    dget (([] : Dict)) CONF_INTERVAL ≠ Option.none ∨
      dget [(CONF_INTERVAL, Value.str "bad")] CONF_INTERVAL ≠ Option.none :=
  ((C7_error_handling ⟨[], [(CONF_INTERVAL, Value.str "bad")]⟩).2
    "offending value for time period: bad" rfl).1

/-- C8: `validate` is a deterministic, state-free function of the two
input layers: entries with equal `options` and equal `data` produce equal
outputs (the embedding is a pure function of exactly those layers, with no
other state read or written). -/
theorem C8_validate_deterministic (e₁ e₂ : ConfigEntry)
    (hopts : e₁.options = e₂.options) (hdata : e₁.data = e₂.data) :
    validate e₁ = validate e₂ := by
  rw [validate, validate, hopts, hdata]

/-- C8 witness: the determinism theorem applied at a concrete entry. -/
theorem C8_witness :
    validate ⟨[], [(CONF_INTERVAL, Value.str "0:05:00")]⟩ =
      validate ⟨[], [(CONF_INTERVAL, Value.str "0:05:00")]⟩ :=
  C8_validate_deterministic ⟨[], [(CONF_INTERVAL, Value.str "0:05:00")]⟩
    ⟨[], [(CONF_INTERVAL, Value.str "0:05:00")]⟩ rfl rfl

/-- C9: `is_our_context` returns false for an absent context and, for a
present one, true exactly when the identifier begins with the origin tag
`adapt_lgt`. -/
theorem C9_is_our_context_spec :
    is_our_context Option.none = false ∧
    ∀ c : Context, (is_our_context (some c) = true ↔ _DOMAIN_SHORT <+: c.id) := by
  refine ⟨rfl, fun c => ?_⟩
  rw [is_our_context]
  exact List.isPrefixOf_iff_prefix

/-- C10 (amended): index 0 packs to the empty string, so — absent
truncation (untruncated identifier of at most 36 characters) — the
identifier ends with a trailing ':' right after the category; every index
at least 1 packs to a non-empty string, so absent truncation the index-0
identifier differs from every index-at-least-1 identifier with the same
name and category. -/
theorem C10_index_zero_encoding (h : List Char → Int) (name which : List Char)
    (index : Nat) :
    (b85encode (_int_to_bytes (Int.ofNat 0) false) = []) ∧
    ((context_id_untruncated h name which 0).length ≤ 36 →
      (create_context h name which 0 Option.none).id.getLast? = some ':') ∧
    (1 ≤ index → b85encode (_int_to_bytes (Int.ofNat index) false) ≠ []) ∧
    (1 ≤ index →
      context_id_untruncated h name which 0 ≠
        context_id_untruncated h name which index) := by
  have hpos : ∀ i : Nat, 1 ≤ i →
      b85encode (_int_to_bytes (Int.ofNat i) false) ≠ [] := by
    intro i hi
    apply b85encode_ne_nil
    simp only [_int_to_bytes, if_neg, Bool.false_eq_true, ite_false]
    rw [natToBytesLE_length, show (Int.ofNat i).natAbs = i from rfl]
    have := bit_length_pos i hi
    omega
  refine ⟨rfl, ?_, hpos index, ?_⟩
  · intro hle
    rw [show (create_context h name which 0 Option.none).id
        = (context_id_untruncated h name which 0).take 36 from rfl,
      List.take_of_length_le hle, context_id_untruncated,
      show b85encode (_int_to_bytes (Int.ofNat 0) false) = [] from rfl,
      List.append_nil]
    exact List.getLast?_concat _
  · intro h1 heq
    rw [context_id_untruncated, context_id_untruncated] at heq
    have hc := List.append_cancel_left heq
    rw [show b85encode (_int_to_bytes (Int.ofNat 0) false) = [] from rfl] at hc
    exact hpos index h1 hc.symm

/-- C10 counterexample: with a 30-character category the 36-character
truncation cuts the empty index portion and its separator away, so the
index-0 identifier does not end with ':'. -/
theorem C10_counterexample_truncation_cuts_colon :
    (create_context (fun _ => 0) "a".toList (List.replicate 30 'a') 0
      Option.none).id.getLast? ≠ some ':' := by decide

/-- C10 witness: the amended theorem applied at a short category, where no
truncation occurs. -/
theorem C10_witness :
    (create_context (fun _ => 0) "a".toList "turn_on".toList 0
        Option.none).id.getLast? = some ':' ∧
    context_id_untruncated (fun _ => 0) "a".toList "turn_on".toList 0 ≠
      context_id_untruncated (fun _ => 0) "a".toList "turn_on".toList 1 :=
  ⟨(C10_index_zero_encoding (fun _ => 0) "a".toList "turn_on".toList 1).2.1
      (by decide),
    (C10_index_zero_encoding (fun _ => 0) "a".toList "turn_on".toList 1).2.2.2
      (by decide)⟩

end PresenceSimulator
